import Mathlib

/-!
Shallow embedding of the cxxhotplug repository (src/main.cpp,
src/operator_interface.h, src/score_op_v1.cpp, src/score_op_v2.cpp).

Modelling choices:
* C++ doubles are modelled as rationals; the C library sine used by
  ScoreOperatorV2 is an abstract function parameter.
* dlopen handles and operator instances are modelled as natural-number
  identifiers; a null pointer is modelled as none.
* The loader and the OperatorHolder destructor additionally emit the list of
  teardown events (destroy_operator calls, dlclose calls) they perform, so
  that resource-release claims can be stated.
* The shared_ptr slot g_operator, with its atomic load/store and reference
  counting, is modelled as a small-step transition system over states that
  record the slot content, the multiset of outstanding holder references, the
  use count per bundle and how many times each bundle was destroyed.
-/

namespace CxxHotplug

/-- Feature from operator_interface.h: two integer ids and two real-valued
signal fields. -/
structure Feature where
  user_id : Int
  item_id : Int
  user_feature : ℚ
  item_feature : ℚ
deriving DecidableEq

/-- ScoreOperatorV1.compute_score from score_op_v1.cpp, written in explicit
state-passing style over an arbitrary ambient state type so that (absence of)
access to state outside the Feature argument is expressible:
return feature.user_feature * 0.7 + feature.item_feature * 0.3. -/
def computeScoreV1 {S : Type} (feature : Feature) (σ : S) : ℚ × S :=
  (feature.user_feature * 0.7 + feature.item_feature * 0.3, σ)

/-- ScoreOperatorV1.name from score_op_v1.cpp. -/
def nameV1 {S : Type} (σ : S) : String × S :=
  ("ScoreOperatorV1", σ)

/-- ScoreOperatorV2.compute_score from score_op_v2.cpp, with the C sine
function abstracted as the parameter sinFn:
base = user_feature * 0.4 + item_feature * 0.6;
return base * (1.0 + 0.1 * sin(user_id * 0.1)) + 2.0. -/
def computeScoreV2 {S : Type} (sinFn : ℚ → ℚ) (feature : Feature) (σ : S) : ℚ × S :=
  let base_score := feature.user_feature * 0.4 + feature.item_feature * 0.6
  (base_score * (1.0 + 0.1 * sinFn ((feature.user_id : ℚ) * 0.1)) + 2.0, σ)

/-- ScoreOperatorV2.name from score_op_v2.cpp. -/
def nameV2 {S : Type} (σ : S) : String × S :=
  ("ScoreOperatorV2", σ)

/-- Teardown events performed by the loader and by ~OperatorHolder. -/
inductive Event where
  | destroyEv (inst : Nat)
  | dlcloseEv (handle : Nat)
deriving DecidableEq

/-- OperatorHolder from main.cpp: module handle, operator instance and
destroy_func pointer; none models a null pointer, and destroy_func is
modelled by whether it is non-null (its behaviour is the plugin's). -/
structure OperatorHolder where
  handle : Option Nat
  op : Option Nat
  destroy_func : Bool
deriving DecidableEq

/-- The first statement of ~OperatorHolder from main.cpp:
if (op && destroy_func) destroy_func(op). -/
def OperatorHolder.destroyPart (h : OperatorHolder) : List Event :=
  match h.op, h.destroy_func with
  | some inst, true => [Event.destroyEv inst]
  | _, _ => []

/-- The second statement of ~OperatorHolder from main.cpp:
if (handle) dlclose(handle). -/
def OperatorHolder.closePart (h : OperatorHolder) : List Event :=
  match h.handle with
  | some hd => [Event.dlcloseEv hd]
  | none => []

/-- ~OperatorHolder from main.cpp, as the list of teardown events it performs
in order: if (op && destroy_func) destroy_func(op); if (handle)
dlclose(handle). -/
def OperatorHolder.dtorEvents (h : OperatorHolder) : List Event :=
  h.destroyPart ++ h.closePart

/-- Abstract dynamic-loading environment: what dlopen returns per path,
whether dlsym resolves the create_operator / destroy_operator entry points of
a handle, and what the plugin factory create_operator returns (none models a
factory returning a null instance). -/
structure ModuleEnv where
  dlopen : String → Option Nat
  hasCreate : Nat → Bool
  hasDestroy : Nat → Bool
  create : Nat → Option Nat

/-- load_operator from main.cpp. Returns the resulting shared holder (none on
failure) together with the teardown events performed during the call itself,
including those of the discarded local holder's destructor on the failure
paths:
* dlopen fails: return nullptr (the discarded holder has null fields, so its
  destructor performs nothing);
* dlsym fails for either entry point: explicit dlclose(holder->handle), then
  return nullptr, upon which the discarded holder's destructor runs with
  handle still set;
* otherwise holder->op = create(); holder->destroy_func = destroy; return
  holder (the factory result is not checked). -/
def load_operator (env : ModuleEnv) (so_file : String) :
    Option OperatorHolder × List Event :=
  match env.dlopen so_file with
  | none => (none, [])
  | some hd =>
    if env.hasCreate hd && env.hasDestroy hd then
      (some { handle := some hd, op := env.create hd, destroy_func := true }, [])
    else
      (none, [Event.dlcloseEv hd] ++
        OperatorHolder.dtorEvents { handle := some hd, op := none, destroy_func := false })

/-- Statistics from main.cpp (the counter fields; the start timestamp and
printing are presentation only). -/
structure Statistics where
  total_requests : Nat
  v1_requests : Nat
  v2_requests : Nat
  hot_update_count : Nat
deriving DecidableEq

/-- The all-zero counters of a freshly constructed Statistics. -/
def initStats : Statistics :=
  { total_requests := 0, v1_requests := 0, v2_requests := 0, hot_update_count := 0 }

/-- Statistics::record_request from main.cpp: total_requests++ always, then
v1_requests++ if the name is ScoreOperatorV1, else v2_requests++ if it is
ScoreOperatorV2. -/
def record_request (op_name : String) (s : Statistics) : Statistics :=
  let s1 := { s with total_requests := s.total_requests + 1 }
  if op_name = "ScoreOperatorV1" then
    { s1 with v1_requests := s1.v1_requests + 1 }
  else if op_name = "ScoreOperatorV2" then
    { s1 with v2_requests := s1.v2_requests + 1 }
  else
    s1

/-- A sequence of record_request calls, applied in order. -/
def recordAll (names : List String) (s : Statistics) : Statistics :=
  List.foldl (fun acc n => record_request n acc) s names

/-- The shared program state touched by hot_update and the workers:
the slot g_operator and the global statistics g_stats. -/
structure GState where
  g_operator : Option OperatorHolder
  g_stats : Statistics
deriving DecidableEq

/-- The worker's atomic_load of g_operator (main.cpp line 124). -/
def snapshot (s : GState) : Option OperatorHolder :=
  s.g_operator

/-- hot_update from main.cpp: load_operator; on failure print and return
false leaving all shared state untouched; on success atomic-store the new
holder into g_operator, increment g_stats.hot_update_count and return true
(the trailing 100 ms grace sleep has no shared-state effect). -/
def hot_update (env : ModuleEnv) (so_file : String) (s : GState) : Bool × GState :=
  match (load_operator env so_file).1 with
  | none => (false, s)
  | some new_holder =>
    (true,
      { g_operator := some new_holder,
        g_stats :=
          { s.g_stats with hot_update_count := s.g_stats.hot_update_count + 1 } })

/-- Per-thread observable outcome of running business rounds: the statistics,
how many loop iterations completed, and how many compute_score calls were
made. -/
structure ThreadRun where
  stats : Statistics
  rounds_done : Nat
  compute_calls : Nat
deriving DecidableEq

/-- One iteration of the loop body of business_thread_func from main.cpp,
given the holder the atomic load observed (the snapshot) and a name table for
operator instances: if the holder or its op pointer is null, print an error
and continue (no compute_score call, no record_request); otherwise call
compute_score and record_request(op->name()). -/
def round_step (instName : Nat → String) (acc : ThreadRun) (o : Option OperatorHolder) :
    ThreadRun :=
  match o with
  | none => { acc with rounds_done := acc.rounds_done + 1 }
  | some op_ptr =>
    match op_ptr.op with
    | none => { acc with rounds_done := acc.rounds_done + 1 }
    | some inst =>
      { stats := record_request (instName inst) acc.stats,
        rounds_done := acc.rounds_done + 1,
        compute_calls := acc.compute_calls + 1 }

/-- business_thread_func from main.cpp, over the list of snapshots its
rounds observe (one entry per loop iteration, capturing the interleaving
with concurrent publishes). -/
def business_thread_func (instName : Nat → String)
    (obs : List (Option OperatorHolder)) (st : Statistics) : ThreadRun :=
  List.foldl (round_step instName) { stats := st, rounds_done := 0, compute_calls := 0 } obs

/-- An atomic action of the demo scenario: one worker round (identified by
thread id and round index) or one controller hot_update to a path. -/
inductive DemoAction where
  | workerRound (tid round : Nat)
  | controllerUpdate (path : String)
deriving DecidableEq

/-- Whether a demo action is a worker round. -/
def DemoAction.isWorker : DemoAction → Bool
  | .workerRound _ _ => true
  | .controllerUpdate _ => false

/-- The shared-state effect of one demo action: a worker round performs the
loop body of business_thread_func against the current snapshot; a controller
action performs hot_update. -/
def demoStep (env : ModuleEnv) (instName : Nat → String) (s : GState) :
    DemoAction → GState
  | .workerRound _ _ =>
    match snapshot s with
    | none => s
    | some op_ptr =>
      match op_ptr.op with
      | none => s
      | some inst => { s with g_stats := record_request (instName inst) s.g_stats }
  | .controllerUpdate path => (hot_update env path s).2

/-- Run a schedule (an interleaving of worker rounds and controller updates)
against the shared state. -/
def runDemo (env : ModuleEnv) (instName : Nat → String)
    (acts : List DemoAction) (s : GState) : GState :=
  List.foldl (demoStep env instName) s acts

/-- The loading environment of the demo run: both shipped plugin modules open
and resolve both entry points, and each factory returns a (non-null) fresh
instance, identified with its handle. -/
def demoEnv : ModuleEnv where
  dlopen := fun path =>
    if path = "./score_op_v1.so" then some 1
    else if path = "./score_op_v2.so" then some 2
    else none
  hasCreate := fun _ => true
  hasDestroy := fun _ => true
  create := fun hd => some hd

/-- name() of the demo instances: instance 1 is ScoreOperatorV1, instance 2
is ScoreOperatorV2. -/
def demoInstName : Nat → String := fun inst =>
  if inst = 1 then "ScoreOperatorV1"
  else if inst = 2 then "ScoreOperatorV2"
  else "unknown"

/-- The shared state before main runs: empty slot, zeroed statistics. -/
def initG : GState :=
  { g_operator := none, g_stats := initStats }

/-- A concrete schedule of the scripted demo: the 3 controller updates of
hot_swap_controller (v2 at t=2s, v1 at t=5s, v2 at t=8s) interleaved with the
4 threads times 20 rounds of worker traffic (rounds roughly every 300 ms, so
about 6-7 rounds per thread between consecutive updates). -/
def demoSchedule : List DemoAction :=
  ((List.range 4).map fun tid => (List.range 7).map fun r => DemoAction.workerRound tid r).flatten ++
  [DemoAction.controllerUpdate "./score_op_v2.so"] ++
  ((List.range 4).map fun tid => (List.range 7).map fun r => DemoAction.workerRound tid (7 + r)).flatten ++
  [DemoAction.controllerUpdate "./score_op_v1.so"] ++
  ((List.range 4).map fun tid => (List.range 6).map fun r => DemoAction.workerRound tid (14 + r)).flatten ++
  [DemoAction.controllerUpdate "./score_op_v2.so"]

/-- A state of the reference-counted slot lifecycle of main.cpp. Bundles (the
OperatorHolder objects managed by shared_ptr) are numbered in order of
creation by load_operator: slot is the bundle g_operator currently points to
(none before the first publish and after final release at process exit); held
is the multiset of bundle references currently held outside the slot (worker
snapshots, and the controller's temporary old_holder / new_holder locals);
refs is each bundle's shared_ptr use count; destroyed counts how many times
~OperatorHolder has run for each bundle; next is the number of bundles
created so far. -/
structure SwapState where
  slot : Option Nat
  held : List Nat
  refs : Nat → Nat
  destroyed : Nat → Nat
  next : Nat

/-- shared_ptr release semantics: decrement the use count of b; when the
count reaches zero the destructor (~OperatorHolder) runs, exactly then. The
result is the updated (refs, destroyed) pair. -/
def releaseRef (b : Nat) (refs destroyed : Nat → Nat) : (Nat → Nat) × (Nat → Nat) :=
  (fun x => if x = b then refs b - 1 else refs x,
   if refs b = 1 then (fun x => if x = b then destroyed b + 1 else destroyed x)
   else destroyed)

/-- The atomic transitions of the slot lifecycle, one per atomic shared_ptr
operation in main.cpp:
* snapshotStep: std::atomic_load(&g_operator) into a holder variable (worker
  line 124, or the controller's old_holder) — acquires one reference to the
  current bundle;
* releaseStep: a holder variable goes out of scope — releases one reference,
  running the destructor if it was the last;
* publishFirstStep / publishSwapStep: successful hot_update's atomic_store
  of a freshly loaded bundle (use count 1, held by the slot), releasing the
  slot's reference to the previous bundle if there was one;
* shutdownStep: the slot's own reference is released (process exit). -/
inductive SwapStep : SwapState → SwapState → Prop
  | snapshotStep (s : SwapState) (b : Nat) (hb : s.slot = some b) :
      SwapStep s
        { slot := s.slot, held := b :: s.held,
          refs := fun x => if x = b then s.refs b + 1 else s.refs x,
          destroyed := s.destroyed, next := s.next }
  | releaseStep (s : SwapState) (b : Nat) (hb : b ∈ s.held) :
      SwapStep s
        { slot := s.slot, held := s.held.erase b,
          refs := (releaseRef b s.refs s.destroyed).1,
          destroyed := (releaseRef b s.refs s.destroyed).2, next := s.next }
  | publishFirstStep (s : SwapState) (h : s.slot = none) :
      SwapStep s
        { slot := some s.next, held := s.held,
          refs := fun x => if x = s.next then 1 else s.refs x,
          destroyed := s.destroyed, next := s.next + 1 }
  | publishSwapStep (s : SwapState) (b : Nat) (hb : s.slot = some b) :
      SwapStep s
        { slot := some s.next, held := s.held,
          refs := fun x => if x = s.next then 1 else (releaseRef b s.refs s.destroyed).1 x,
          destroyed := (releaseRef b s.refs s.destroyed).2, next := s.next + 1 }
  | shutdownStep (s : SwapState) (b : Nat) (hb : s.slot = some b) :
      SwapStep s
        { slot := none, held := s.held,
          refs := (releaseRef b s.refs s.destroyed).1,
          destroyed := (releaseRef b s.refs s.destroyed).2, next := s.next }

/-- The program's starting state: null g_operator, no holders, no bundles. -/
def swapInit : SwapState :=
  { slot := none, held := [], refs := fun _ => 0, destroyed := fun _ => 0, next := 0 }

/-- States reachable by some interleaving of snapshots, releases and
publishes from the starting state. -/
inductive Reachable : SwapState → Prop
  | init : Reachable swapInit
  | step {s t : SwapState} : Reachable s → SwapStep s t → Reachable t

/-- Zero or more transitions from s to t (used to say one state occurs after
another in the same execution). -/
inductive StepsFrom : SwapState → SwapState → Prop
  | refl (s : SwapState) : StepsFrom s s
  | tail {s t u : SwapState} : StepsFrom s t → SwapStep t u → StepsFrom s u

/-- The contribution of the slot itself to a bundle's use count. -/
def slotBit (s : SwapState) (b : Nat) : Nat :=
  if s.slot = some b then 1 else 0

/-- The lifecycle invariant: each bundle's use count equals the number of its
holders (slot plus outstanding references); bundles not yet created have
count zero and were never destroyed; a created bundle has been destroyed
exactly once if its count is zero and never otherwise. -/
def Inv (s : SwapState) : Prop :=
  (∀ b, s.refs b = slotBit s b + s.held.count b) ∧
  (∀ b, s.next ≤ b → s.refs b = 0 ∧ s.destroyed b = 0) ∧
  (∀ b, b < s.next → s.destroyed b = (if s.refs b = 0 then 1 else 0))

/-- The worker's snapshot observation: the bundle currently in the slot. -/
def snapshotLoad (s : SwapState) : Option Nat :=
  s.slot

/-- A path whose load succeeds with a non-null operator instance. -/
def goodLoad (env : ModuleEnv) (p : String) : Prop :=
  ∃ h, (load_operator env p).1 = some h ∧ h.op.isSome

/-- A loading environment in which dlopen fails for every path
(no module can be found). -/
def envNoModule : ModuleEnv where
  dlopen := fun _ => none
  hasCreate := fun _ => true
  hasDestroy := fun _ => true
  create := fun hd => some hd

/-- A loading environment in which the module opens and both entry points
resolve, but the factory create_operator returns a null instance. -/
def envNullFactory : ModuleEnv where
  dlopen := fun _ => some 0
  hasCreate := fun _ => true
  hasDestroy := fun _ => true
  create := fun _ => none

/-- A loading environment in which the module opens (handle 7) but dlsym
fails to resolve create_operator. -/
def envNoSyms : ModuleEnv where
  dlopen := fun _ => some 7
  hasCreate := fun _ => false
  hasDestroy := fun _ => true
  create := fun hd => some hd

/-- The slot-lifecycle state right after the first publish: bundle 0 is in
the slot with use count 1, nothing is destroyed. -/
def swapDemo1 : SwapState :=
  { slot := some 0, held := [],
    refs := fun x => if x = 0 then 1 else 0,
    destroyed := fun _ => 0, next := 1 }

theorem refs_of_slot {s : SwapState} (hinv : Inv s) {b : Nat} (hb : s.slot = some b) :
    b < s.next ∧ s.refs b = 1 + s.held.count b := by
  obtain ⟨h1, h2, _⟩ := hinv
  have hr : s.refs b = 1 + s.held.count b := by
    have hx := h1 b
    rwa [slotBit, if_pos hb] at hx
  refine ⟨?_, hr⟩
  by_contra hge
  have h0 := (h2 b (Nat.le_of_not_lt hge)).1
  omega

theorem refs_of_held {s : SwapState} (hinv : Inv s) {b : Nat} (hb : b ∈ s.held) :
    b < s.next ∧ 1 ≤ s.held.count b ∧ 1 ≤ s.refs b := by
  obtain ⟨h1, h2, _⟩ := hinv
  have hc : 1 ≤ s.held.count b := List.count_pos_iff.2 hb
  have hr := h1 b
  refine ⟨?_, hc, by omega⟩
  by_contra hge
  have h0 := (h2 b (Nat.le_of_not_lt hge)).1
  omega

theorem count_of_fresh {s : SwapState} (hinv : Inv s) :
    s.held.count s.next = 0 ∧ s.refs s.next = 0 ∧ s.destroyed s.next = 0 := by
  obtain ⟨h1, h2, _⟩ := hinv
  have h0 := h2 s.next (Nat.le_refl _)
  have hx := h1 s.next
  refine ⟨by omega, h0.1, h0.2⟩

theorem inv_step {s t : SwapState} (hinv : Inv s) (hstep : SwapStep s t) : Inv t := by
  obtain ⟨h1, h2, h3⟩ := hinv
  cases hstep with
  | snapshotStep b hb =>
    obtain ⟨hblt, hrb⟩ := refs_of_slot ⟨h1, h2, h3⟩ hb
    refine ⟨?_, ?_, ?_⟩
    · intro c
      by_cases hc : c = b
      · subst hc
        simp [slotBit, hb]
        omega
      · have hx := h1 c
        rw [slotBit] at hx
        simp [slotBit, hc, List.count_cons_of_ne hc]
        omega
    · intro c hc
      have hc2 : s.next ≤ c := hc
      have hcb : c ≠ b := by omega
      simp [hcb]
      exact h2 c hc2
    · intro c hclt
      have hclt2 : c < s.next := hclt
      by_cases hc : c = b
      · subst hc
        have hd := h3 c hblt
        have hne : s.refs c ≠ 0 := by omega
        simp [hd, hne]
      · simp [hc]
        exact h3 c hclt2
  | releaseStep b hb =>
    obtain ⟨hblt, hcnt, hpos⟩ := refs_of_held ⟨h1, h2, h3⟩ hb
    have hrb := h1 b
    rw [slotBit] at hrb
    refine ⟨?_, ?_, ?_⟩
    · intro c
      by_cases hc : c = b
      · subst hc
        have hx := h1 c
        rw [slotBit] at hx
        simp [releaseRef, slotBit, List.count_erase_self]
        omega
      · have hx := h1 c
        rw [slotBit] at hx
        simp [releaseRef, slotBit, hc, List.count_erase_of_ne hc]
        omega
    · intro c hc
      have hc2 : s.next ≤ c := hc
      have hcb : c ≠ b := by omega
      have h0 := h2 c hc2
      by_cases hone : s.refs b = 1
      · simp [releaseRef, hone, hcb]
        exact h0
      · simp [releaseRef, hone, hcb]
        exact h0
    · intro c hclt
      have hclt2 : c < s.next := hclt
      by_cases hc : c = b
      · subst hc
        have hd := h3 c hblt
        by_cases hone : s.refs c = 1
        · have hdz : s.destroyed c = 0 := by
            rw [hd]
            simp [hone]
          simp [releaseRef, hone, hdz]
        · have hne : s.refs c ≠ 0 := by omega
          have hne2 : s.refs c - 1 ≠ 0 := by omega
          have hdz : s.destroyed c = 0 := by
            rw [hd]
            simp [hne]
          simp [releaseRef, hone, hne2, hdz]
      · have hd := h3 c hclt2
        by_cases hone : s.refs b = 1
        · simp [releaseRef, hone, hc]
          exact hd
        · simp [releaseRef, hone, hc]
          exact hd
  | publishFirstStep h =>
    obtain ⟨hcnt0, hr0, hd0⟩ := count_of_fresh ⟨h1, h2, h3⟩
    refine ⟨?_, ?_, ?_⟩
    · intro c
      by_cases hc : c = s.next
      · subst hc
        simp [slotBit, hcnt0]
      · have hx := h1 c
        rw [slotBit, h] at hx
        simp only [reduceCtorEq, if_false] at hx
        simp [slotBit, hc, Ne.symm hc]
        omega
    · intro c hc
      have hc2 : s.next + 1 ≤ c := hc
      have hcb : c ≠ s.next := by omega
      simp [hcb]
      exact h2 c (by omega)
    · intro c hclt
      have hclt2 : c < s.next + 1 := hclt
      by_cases hc : c = s.next
      · subst hc
        simp [hd0]
      · have hlt : c < s.next := by omega
        simp [hc]
        exact h3 c hlt
  | publishSwapStep b hb =>
    obtain ⟨hblt, hrb⟩ := refs_of_slot ⟨h1, h2, h3⟩ hb
    obtain ⟨hcnt0, hr0, hd0⟩ := count_of_fresh ⟨h1, h2, h3⟩
    have hbne : b ≠ s.next := by omega
    refine ⟨?_, ?_, ?_⟩
    · intro c
      by_cases hc : c = s.next
      · subst hc
        simp [releaseRef, slotBit, hcnt0]
      · by_cases hcb : c = b
        · subst hcb
          simp [releaseRef, slotBit, hc, Ne.symm hc]
          omega
        · have hx := h1 c
          rw [slotBit, hb] at hx
          have hbc : ¬(b = c) := fun hh => hcb hh.symm
          simp [hbc] at hx
          simp [releaseRef, slotBit, hc, hcb, Ne.symm hc]
          omega
    · intro c hc
      have hc2 : s.next + 1 ≤ c := hc
      have hcn : c ≠ s.next := by omega
      have hcb : c ≠ b := by omega
      have h0 := h2 c (by omega)
      by_cases hone : s.refs b = 1
      · simp [releaseRef, hone, hcn, hcb]
        exact h0
      · simp [releaseRef, hone, hcn, hcb]
        exact h0
    · intro c hclt
      have hclt2 : c < s.next + 1 := hclt
      by_cases hc : c = s.next
      · subst hc
        by_cases hone : s.refs b = 1
        · simp [releaseRef, hone, hbne, Ne.symm hbne, hd0]
        · simp [releaseRef, hone, hbne, Ne.symm hbne, hd0]
      · have hlt : c < s.next := by omega
        by_cases hcb : c = b
        · subst hcb
          have hd := h3 c hblt
          by_cases hone : s.refs c = 1
          · have hdz : s.destroyed c = 0 := by
              rw [hd]
              simp [hone]
            simp [releaseRef, hone, hc, hdz]
          · have hne : s.refs c ≠ 0 := by omega
            have hne2 : s.refs c - 1 ≠ 0 := by omega
            have hdz : s.destroyed c = 0 := by
              rw [hd]
              simp [hne]
            simp [releaseRef, hone, hc, hne2, hdz]
        · have hd := h3 c hlt
          by_cases hone : s.refs b = 1
          · simp [releaseRef, hone, hc, hcb]
            exact hd
          · simp [releaseRef, hone, hc, hcb]
            exact hd
  | shutdownStep b hb =>
    obtain ⟨hblt, hrb⟩ := refs_of_slot ⟨h1, h2, h3⟩ hb
    refine ⟨?_, ?_, ?_⟩
    · intro c
      by_cases hc : c = b
      · subst hc
        simp [releaseRef, slotBit, List.count_erase_self]
        omega
      · have hx := h1 c
        rw [slotBit, hb] at hx
        have hbc : ¬(b = c) := fun hh => hc hh.symm
        simp [hbc] at hx
        simp [releaseRef, slotBit, hc]
        omega
    · intro c hc
      have hc2 : s.next ≤ c := hc
      have hcb : c ≠ b := by omega
      have h0 := h2 c hc2
      by_cases hone : s.refs b = 1
      · simp [releaseRef, hone, hcb]
        exact h0
      · simp [releaseRef, hone, hcb]
        exact h0
    · intro c hclt
      have hclt2 : c < s.next := hclt
      by_cases hc : c = b
      · subst hc
        have hd := h3 c hblt
        by_cases hone : s.refs c = 1
        · have hdz : s.destroyed c = 0 := by
            rw [hd]
            simp [hone]
          simp [releaseRef, hone, hdz]
        · have hne : s.refs c ≠ 0 := by omega
          have hne2 : s.refs c - 1 ≠ 0 := by omega
          have hdz : s.destroyed c = 0 := by
            rw [hd]
            simp [hne]
          simp [releaseRef, hone, hne2, hdz]
      · have hd := h3 c hclt2
        by_cases hone : s.refs b = 1
        · simp [releaseRef, hone, hc]
          exact hd
        · simp [releaseRef, hone, hc]
          exact hd


theorem inv_reachable {s : SwapState} (hs : Reachable s) : Inv s := by
  induction hs with
  | init =>
    refine ⟨?_, ?_, ?_⟩
    · intro b
      simp [swapInit, slotBit]
    · intro b _
      exact ⟨rfl, rfl⟩
    · intro b hb
      exact absurd hb (Nat.not_lt_zero b)
  | step _ hstep ih => exact inv_step ih hstep

theorem slot_mono_step {s t : SwapState} (hstep : SwapStep s t) {k : Nat}
    (hk : ∀ k0, s.slot = some k0 → k ≤ k0) (hkn : k < s.next) :
    (∀ k1, t.slot = some k1 → k ≤ k1) ∧ k < t.next := by
  cases hstep with
  | snapshotStep b hb => exact ⟨hk, hkn⟩
  | releaseStep b hb => exact ⟨hk, hkn⟩
  | publishFirstStep h =>
    refine ⟨?_, Nat.lt_succ_of_lt hkn⟩
    intro k1 hk1
    have hnk : s.next = k1 := by injection hk1
    omega
  | publishSwapStep b hb =>
    refine ⟨?_, Nat.lt_succ_of_lt hkn⟩
    intro k1 hk1
    have hnk : s.next = k1 := by injection hk1
    omega
  | shutdownStep b hb =>
    refine ⟨?_, hkn⟩
    intro k1 hk1
    exact absurd hk1 (by simp)

theorem slot_mono {s t : SwapState} (hst : StepsFrom s t) {k : Nat}
    (hk : ∀ k0, s.slot = some k0 → k ≤ k0) (hkn : k < s.next) :
    (∀ k1, t.slot = some k1 → k ≤ k1) ∧ k < t.next := by
  induction hst with
  | refl => exact ⟨hk, hkn⟩
  | tail hst hstep ih =>
    obtain ⟨hk1, hkn1⟩ := ih
    exact slot_mono_step hstep hk1 hkn1

theorem record_request_spec (n : String) (s : Statistics) :
    (record_request n s).total_requests = s.total_requests + 1 ∧
    (record_request n s).hot_update_count = s.hot_update_count ∧
    (record_request n s).v1_requests
      = s.v1_requests + (if n = "ScoreOperatorV1" then 1 else 0) ∧
    (record_request n s).v2_requests
      = s.v2_requests + (if n = "ScoreOperatorV2" then 1 else 0) := by
  unfold record_request
  by_cases h1 : n = "ScoreOperatorV1"
  · have h2 : ¬(n = "ScoreOperatorV2") := by
      subst h1
      decide
    simp [h1, h2]
  · by_cases h2 : n = "ScoreOperatorV2"
    · simp [h1, h2]
    · simp [h1, h2]

theorem recordAll_spec (names : List String) (s : Statistics) :
    (recordAll names s).total_requests = s.total_requests + names.length ∧
    (recordAll names s).v1_requests = s.v1_requests + names.count "ScoreOperatorV1" ∧
    (recordAll names s).v2_requests = s.v2_requests + names.count "ScoreOperatorV2" ∧
    (recordAll names s).hot_update_count = s.hot_update_count := by
  induction names generalizing s with
  | nil => simp [recordAll]
  | cons n t ih =>
    have hstep : recordAll (n :: t) s = recordAll t (record_request n s) := rfl
    obtain ⟨iht, ih1, ih2, ihc⟩ := ih (record_request n s)
    obtain ⟨r1, r2, r3, r4⟩ := record_request_spec n s
    rw [hstep]
    refine ⟨?_, ?_, ?_, ?_⟩
    · rw [iht, r1]
      simp [Nat.add_assoc, Nat.add_comm 1]
    · rw [ih1, r3, List.count_cons]
      by_cases hv : n = "ScoreOperatorV1"
      · simp [hv]
        omega
      · simp [hv, Ne.symm hv]
    · rw [ih2, r4, List.count_cons]
      by_cases hv : n = "ScoreOperatorV2"
      · simp [hv]
        omega
      · simp [hv, Ne.symm hv]
    · rw [ihc, r2]

theorem count_split (names : List String) :
    names.length = names.count "ScoreOperatorV1" + names.count "ScoreOperatorV2"
      + (names.countP fun n =>
          !(n == "ScoreOperatorV1") && !(n == "ScoreOperatorV2")) := by
  induction names with
  | nil => rfl
  | cons n t ih =>
    rw [List.length_cons, List.count_cons, List.count_cons, List.countP_cons, ih]
    by_cases h1 : n = "ScoreOperatorV1"
    · have h2 : ¬(n = "ScoreOperatorV2") := by
        subst h1
        decide
      simp [h1, h2]
      omega
    · by_cases h2 : n = "ScoreOperatorV2"
      · simp [h1, h2]
        omega
      · simp [h1, h2, Ne.symm h1, Ne.symm h2]
        omega

theorem round_step_spec (instName : Nat → String) (acc : ThreadRun)
    (o : Option OperatorHolder) :
    (round_step instName acc o).rounds_done = acc.rounds_done + 1 ∧
    ((o = none ∨ (∃ h, o = some h ∧ h.op = none)) →
      (round_step instName acc o).stats = acc.stats ∧
      (round_step instName acc o).compute_calls = acc.compute_calls) := by
  cases o with
  | none => exact ⟨rfl, fun _ => ⟨rfl, rfl⟩⟩
  | some op_ptr =>
    cases hop : op_ptr.op with
    | none =>
      refine ⟨by simp [round_step, hop], fun _ => ⟨?_, ?_⟩⟩
      · simp [round_step, hop]
      · simp [round_step, hop]
    | some i =>
      refine ⟨by simp [round_step, hop], fun hbad => ?_⟩
      rcases hbad with hbad | ⟨h, hh, hopn⟩
      · exact absurd hbad (by simp)
      · rw [show h = op_ptr from by injection hh with hh2; exact hh2.symm] at hopn
        rw [hop] at hopn
        exact absurd hopn (by simp)

theorem round_fold_rounds (instName : Nat → String)
    (obs : List (Option OperatorHolder)) (acc : ThreadRun) :
    (List.foldl (round_step instName) acc obs).rounds_done
      = acc.rounds_done + obs.length := by
  induction obs generalizing acc with
  | nil => simp
  | cons o t ih =>
    rw [List.foldl_cons, ih, (round_step_spec instName acc o).1, List.length_cons]
    omega

theorem round_fold_congr (instName : Nat → String)
    (obs : List (Option OperatorHolder)) (a b : ThreadRun)
    (hs : a.stats = b.stats) (hc : a.compute_calls = b.compute_calls) :
    (List.foldl (round_step instName) a obs).stats
      = (List.foldl (round_step instName) b obs).stats ∧
    (List.foldl (round_step instName) a obs).compute_calls
      = (List.foldl (round_step instName) b obs).compute_calls := by
  induction obs generalizing a b with
  | nil => exact ⟨hs, hc⟩
  | cons o t ih =>
    rw [List.foldl_cons, List.foldl_cons]
    apply ih
    · cases o with
      | none => simpa [round_step] using hs
      | some op_ptr =>
        cases hop : op_ptr.op with
        | none => simpa [round_step, hop] using hs
        | some i => simp [round_step, hop, hs]
    · cases o with
      | none => simpa [round_step] using hc
      | some op_ptr =>
        cases hop : op_ptr.op with
        | none => simpa [round_step, hop] using hc
        | some i => simp [round_step, hop, hc]

theorem runDemo_counts (env : ModuleEnv) (instName : Nat → String)
    (acts : List DemoAction) (s : GState)
    (hop : ∃ h, s.g_operator = some h ∧ h.op.isSome)
    (hpaths : ∀ p, DemoAction.controllerUpdate p ∈ acts → goodLoad env p) :
    ((runDemo env instName acts s).g_stats.total_requests
        = s.g_stats.total_requests + (acts.filter DemoAction.isWorker).length) ∧
    ((runDemo env instName acts s).g_stats.hot_update_count
        = s.g_stats.hot_update_count
          + (acts.filter fun a => !DemoAction.isWorker a).length) ∧
    (∃ h, (runDemo env instName acts s).g_operator = some h ∧ h.op.isSome) := by
  induction acts generalizing s with
  | nil => simpa [runDemo] using hop
  | cons a t ih =>
    have hrun : runDemo env instName (a :: t) s
        = runDemo env instName t (demoStep env instName s a) := rfl
    cases a with
    | workerRound tid r =>
      obtain ⟨h, hh, hsome⟩ := hop
      obtain ⟨i, hi⟩ := Option.isSome_iff_exists.1 hsome
      have hstep : demoStep env instName s (DemoAction.workerRound tid r)
          = { s with g_stats := record_request (instName i) s.g_stats } := by
        simp [demoStep, snapshot, hh, hi]
      obtain ⟨iht, ihc, ihop⟩ := ih { s with g_stats := record_request (instName i) s.g_stats }
        ⟨h, hh, hsome⟩ (fun p hp => hpaths p (List.mem_cons_of_mem _ hp))
      obtain ⟨r1, r2, _, _⟩ := record_request_spec (instName i) s.g_stats
      rw [hrun, hstep]
      refine ⟨?_, ?_, ihop⟩
      · rw [iht]
        simp [DemoAction.isWorker, r1]
        omega
      · rw [ihc]
        simp [DemoAction.isWorker, r2]
    | controllerUpdate p =>
      obtain ⟨hnew, hload, hnsome⟩ := hpaths p (List.mem_cons_self _ _)
      have hstep : demoStep env instName s (DemoAction.controllerUpdate p)
          = { g_operator := some hnew,
              g_stats := { s.g_stats with
                hot_update_count := s.g_stats.hot_update_count + 1 } } := by
        simp [demoStep, hot_update, hload]
      obtain ⟨iht, ihc, ihop⟩ := ih
        { g_operator := some hnew,
          g_stats := { s.g_stats with
            hot_update_count := s.g_stats.hot_update_count + 1 } }
        ⟨hnew, rfl, hnsome⟩ (fun q hq => hpaths q (List.mem_cons_of_mem _ hq))
      rw [hrun, hstep]
      refine ⟨?_, ?_, ihop⟩
      · rw [iht]
        simp [DemoAction.isWorker]
      · rw [ihc]
        simp [DemoAction.isWorker]
        omega

/-- C1: for every interleaving of worker snapshot operations and controller
publishes, each bundle's teardown (~OperatorHolder) runs at most once, it has
run only in states where the bundle's shared use count is zero and neither
the slot g_operator nor any outstanding snapshot holds the bundle, and once
every holder has released (empty slot, no outstanding references) every
bundle ever created has been torn down exactly once. -/
theorem c1_teardown_exactly_once (s : SwapState) (hs : Reachable s) :
    (∀ b, s.destroyed b ≤ 1) ∧
    (∀ b, 1 ≤ s.destroyed b → s.refs b = 0 ∧ s.slot ≠ some b ∧ b ∉ s.held) ∧
    (s.slot = none → s.held = [] → ∀ b, b < s.next → s.destroyed b = 1) := by
  obtain ⟨h1, h2, h3⟩ := inv_reachable hs
  refine ⟨?_, ?_, ?_⟩
  · intro b
    by_cases hb : b < s.next
    · rw [h3 b hb]
      split <;> omega
    · have h0 := (h2 b (by omega)).2
      omega
  · intro b hd
    have hblt : b < s.next := by
      by_contra hge
      have h0 := (h2 b (by omega)).2
      omega
    have h3b := h3 b hblt
    have hr0 : s.refs b = 0 := by
      by_cases hr : s.refs b = 0
      · exact hr
      · rw [h3b, if_neg hr] at hd
        omega
    have hx := h1 b
    rw [slotBit] at hx
    refine ⟨hr0, ?_, ?_⟩
    · intro hslot
      rw [if_pos hslot] at hx
      omega
    · intro hmem
      have hc := List.count_pos_iff.2 hmem
      omega
  · intro hslot hheld b hblt
    have hx := h1 b
    rw [slotBit, hslot, hheld] at hx
    simp at hx
    rw [h3 b hblt, if_pos hx]

/-- Witness for C1 at the concrete reachable state right after the first
publish. -/
theorem c1_witness :
    (∀ b, swapDemo1.destroyed b ≤ 1) ∧
    (∀ b, 1 ≤ swapDemo1.destroyed b →
      swapDemo1.refs b = 0 ∧ swapDemo1.slot ≠ some b ∧ b ∉ swapDemo1.held) ∧
    (swapDemo1.slot = none → swapDemo1.held = [] →
      ∀ b, b < swapDemo1.next → swapDemo1.destroyed b = 1) :=
  c1_teardown_exactly_once swapDemo1
    (Reachable.step Reachable.init (SwapStep.publishFirstStep swapInit rfl))

/-- C2: monotonic visibility. If the atomic store of hot_update has installed
bundle k (the state s has k current) and the worker's atomic load happens at
any later point t of the same execution, the load returns k or a
later-published bundle, never one published strictly before k. -/
theorem c2_monotonic_visibility (s t : SwapState) (hs : Reachable s) (k : Nat)
    (hk : s.slot = some k) (hst : StepsFrom s t) (k2 : Nat)
    (hk2 : snapshotLoad t = some k2) : k ≤ k2 := by
  have hinv := inv_reachable hs
  have hkn : k < s.next := (refs_of_slot hinv hk).1
  have hk0 : ∀ k0, s.slot = some k0 → k ≤ k0 := by
    intro k0 h0
    rw [hk] at h0
    injection h0 with h0
    omega
  exact (slot_mono hst hk0 hkn).1 k2 hk2

/-- Witness for C2: right after the first publish, a snapshot observes
bundle 0, which is not older than the published bundle 0. -/
theorem c2_witness :
    swapDemo1.slot = some 0 ∧ snapshotLoad swapDemo1 = some 0 ∧ (0 : Nat) ≤ 0 :=
  ⟨rfl, rfl,
    c2_monotonic_visibility swapDemo1 swapDemo1
      (Reachable.step Reachable.init (SwapStep.publishFirstStep swapInit rfl))
      0 rfl (StepsFrom.refl swapDemo1) 0 rfl⟩

/-- C3: a failed load makes hot_update return false and leave all observable
shared state unchanged: g_operator is untouched, the statistics (including
hot_update_count) are untouched, and a subsequent snapshot yields the same
bundle as before the failed attempt. -/
theorem c3_failed_swap_noop (env : ModuleEnv) (path : String) (s : GState)
    (hfail : (load_operator env path).1 = none) :
    hot_update env path s = (false, s) ∧
    snapshot (hot_update env path s).2 = snapshot s ∧
    (hot_update env path s).2.g_stats = s.g_stats := by
  unfold hot_update
  rw [hfail]
  exact ⟨rfl, rfl, rfl⟩

/-- Witness for C3 with an environment in which dlopen fails. -/
theorem c3_witness :
    (load_operator envNoModule "./nonexistent.so").1 = none ∧
    hot_update envNoModule "./nonexistent.so" initG = (false, initG) ∧
    snapshot (hot_update envNoModule "./nonexistent.so" initG).2 = snapshot initG ∧
    (hot_update envNoModule "./nonexistent.so" initG).2.g_stats = initG.g_stats :=
  ⟨rfl, c3_failed_swap_noop envNoModule "./nonexistent.so" initG rfl⟩

/-- C4 counterexample: when the module opens, both entry points resolve, and
the factory create_operator returns null, load_operator does NOT fail: it
returns a bundle whose computation-unit instance pointer is null, contrary to
the claim that such a load is treated as InstantiationFailed. -/
theorem c4_counterexample :
    (load_operator envNullFactory "./score_op_v1.so").1
        = some { handle := some 0, op := none, destroy_func := true } ∧
    (load_operator envNullFactory "./score_op_v1.so").1 ≠ none := by
  exact ⟨rfl, by decide⟩

/-- C4 amended: load_operator does not inspect the factory result. Whenever
the module opens and both entry points resolve, it succeeds and returns a
bundle whose instance pointer is exactly what create_operator returned —
including null; callers can therefore receive a bundle with a null instance
pointer. -/
theorem c4_amended (env : ModuleEnv) (path : String) (hd : Nat)
    (h1 : env.dlopen path = some hd) (h2 : env.hasCreate hd = true)
    (h3 : env.hasDestroy hd = true) :
    (load_operator env path).1
      = some { handle := some hd, op := env.create hd, destroy_func := true } := by
  simp [load_operator, h1, h2, h3]

/-- Witness for the amended C4 at the null-factory environment. -/
theorem c4_witness :
    envNullFactory.dlopen "./score_op_v1.so" = some 0 ∧
    envNullFactory.hasCreate 0 = true ∧
    envNullFactory.hasDestroy 0 = true ∧
    (load_operator envNullFactory "./score_op_v1.so").1
      = some { handle := some 0, op := envNullFactory.create 0,
               destroy_func := true } :=
  ⟨rfl, rfl, rfl, c4_amended envNullFactory "./score_op_v1.so" 0 rfl rfl rfl⟩

/-- C5 (code bug): when dlopen succeeds (handle 7) but dlsym fails to resolve
an entry point, load_operator returns failure, but the module handle is
dlclose'd TWICE — once by the explicit cleanup in load_operator and once more
by the discarded holder's destructor, because holder->handle is never reset —
contradicting the claim that the handle is closed exactly once. -/
theorem c5_double_dlclose :
    (load_operator envNoSyms "./score_op_bad.so").1 = none ∧
    (load_operator envNoSyms "./score_op_bad.so").2
      = [Event.dlcloseEv 7, Event.dlcloseEv 7] ∧
    ((load_operator envNoSyms "./score_op_bad.so").2.filter
        (fun e => e == Event.dlcloseEv 7)).length = 2 := by
  exact ⟨rfl, rfl, rfl⟩

/-- C6: after any sequence of record_request calls, total_requests equals
v1_requests plus v2_requests plus the number of recorded requests whose
operator name was neither ScoreOperatorV1 nor ScoreOperatorV2. -/
theorem c6_counter_consistency (names : List String) :
    (recordAll names initStats).total_requests
      = (recordAll names initStats).v1_requests
        + (recordAll names initStats).v2_requests
        + (names.countP fun n =>
            !(n == "ScoreOperatorV1") && !(n == "ScoreOperatorV2")) := by
  obtain ⟨ht, h1, h2, _⟩ := recordAll_spec names initStats
  rw [ht, h1, h2]
  have hs := count_split names
  simp [initStats]
  omega

/-- Witness for C6 on a concrete request sequence. -/
theorem c6_witness :
    (recordAll ["ScoreOperatorV1", "ScoreOperatorV2", "unknown"]
        initStats).total_requests
      = (recordAll ["ScoreOperatorV1", "ScoreOperatorV2", "unknown"]
          initStats).v1_requests
        + (recordAll ["ScoreOperatorV1", "ScoreOperatorV2", "unknown"]
            initStats).v2_requests
        + ((["ScoreOperatorV1", "ScoreOperatorV2", "unknown"] : List String).countP
            fun n => !(n == "ScoreOperatorV1") && !(n == "ScoreOperatorV2")) :=
  c6_counter_consistency ["ScoreOperatorV1", "ScoreOperatorV2", "unknown"]

/-- C7 counterexample: in a run of the scripted demo (initial load of v1 by
main, then an interleaving of the 4x20 worker rounds with the controller's
three updates), the final hot_update_count is 4, not 3 — the initial load in
main also goes through hot_update and increments the counter — while
total_requests is 80 as claimed. -/
theorem c7_counterexample :
    (runDemo demoEnv demoInstName demoSchedule
        (hot_update demoEnv "./score_op_v1.so" initG).2).g_stats.hot_update_count
      = 4 ∧
    (runDemo demoEnv demoInstName demoSchedule
        (hot_update demoEnv "./score_op_v1.so" initG).2).g_stats.hot_update_count
      ≠ 3 ∧
    (runDemo demoEnv demoInstName demoSchedule
        (hot_update demoEnv "./score_op_v1.so" initG).2).g_stats.total_requests
      = 80 := by
  refine ⟨by rfl, by decide, by rfl⟩

/-- C7 amended: for EVERY interleaving of the 4x20 worker rounds with the
controller's three publishes (v2, v1, v2, all loads succeeding), run after
main's initial hot_update of v1: the final hot_update_count is 4 (the three
controller updates plus the initial load, which also goes through hot_update)
and total_requests is 80, each worker round counted exactly once. -/
theorem c7_amended_demo (schedule : List DemoAction)
    (hW : (schedule.filter DemoAction.isWorker).length = 80)
    (hC : schedule.filter (fun a => !DemoAction.isWorker a)
        = [DemoAction.controllerUpdate "./score_op_v2.so",
           DemoAction.controllerUpdate "./score_op_v1.so",
           DemoAction.controllerUpdate "./score_op_v2.so"]) :
    (runDemo demoEnv demoInstName schedule
        (hot_update demoEnv "./score_op_v1.so" initG).2).g_stats.hot_update_count
      = 4 ∧
    (runDemo demoEnv demoInstName schedule
        (hot_update demoEnv "./score_op_v1.so" initG).2).g_stats.total_requests
      = 80 := by
  have hpaths : ∀ p, DemoAction.controllerUpdate p ∈ schedule → goodLoad demoEnv p := by
    intro p hp
    have hmem : DemoAction.controllerUpdate p
        ∈ schedule.filter (fun a => !DemoAction.isWorker a) :=
      List.mem_filter.2 ⟨hp, by simp [DemoAction.isWorker]⟩
    rw [hC] at hmem
    simp at hmem
    rcases hmem with h | h | h
    all_goals subst h
    · exact ⟨{ handle := some 2, op := some 2, destroy_func := true }, rfl, rfl⟩
    · exact ⟨{ handle := some 1, op := some 1, destroy_func := true }, rfl, rfl⟩
    · exact ⟨{ handle := some 2, op := some 2, destroy_func := true }, rfl, rfl⟩
  obtain ⟨ht, hc2, _⟩ := runDemo_counts demoEnv demoInstName schedule
    (hot_update demoEnv "./score_op_v1.so" initG).2
    ⟨{ handle := some 1, op := some 1, destroy_func := true }, rfl, rfl⟩ hpaths
  constructor
  · rw [hc2, hC]
    rfl
  · rw [ht, hW]
    rfl

/-- Witness for the amended C7 at the concrete demo schedule. -/
theorem c7_witness :
    (demoSchedule.filter DemoAction.isWorker).length = 80 ∧
    demoSchedule.filter (fun a => !DemoAction.isWorker a)
      = [DemoAction.controllerUpdate "./score_op_v2.so",
         DemoAction.controllerUpdate "./score_op_v1.so",
         DemoAction.controllerUpdate "./score_op_v2.so"] ∧
    ((runDemo demoEnv demoInstName demoSchedule
        (hot_update demoEnv "./score_op_v1.so" initG).2).g_stats.hot_update_count
      = 4 ∧
     (runDemo demoEnv demoInstName demoSchedule
        (hot_update demoEnv "./score_op_v1.so" initG).2).g_stats.total_requests
      = 80) :=
  ⟨rfl, rfl, c7_amended_demo demoSchedule rfl rfl⟩

/-- C8: the teardown of every bundle proceeds in order — the events of
~OperatorHolder are the destroy part followed by the dlclose part, where the
destroy part only invokes the plugin-provided destructor on the instance and
the dlclose part only closes the module handle; the module is never unloaded
before the instance it produced has been destroyed. -/
theorem c8_teardown_order (h : OperatorHolder) :
    h.dtorEvents = h.destroyPart ++ h.closePart ∧
    (∀ e ∈ h.destroyPart, ∃ inst, h.op = some inst ∧ e = Event.destroyEv inst) ∧
    (∀ e ∈ h.closePart, ∃ hd, h.handle = some hd ∧ e = Event.dlcloseEv hd) := by
  refine ⟨rfl, ?_, ?_⟩
  · intro e he
    obtain ⟨hh, hop, hdf⟩ := h
    cases hop with
    | none => simp [OperatorHolder.destroyPart] at he
    | some inst =>
      cases hdf with
      | false => simp [OperatorHolder.destroyPart] at he
      | true =>
        simp [OperatorHolder.destroyPart] at he
        exact ⟨inst, rfl, he⟩
  · intro e he
    obtain ⟨hh, hop, hdf⟩ := h
    cases hh with
    | none => simp [OperatorHolder.closePart] at he
    | some hd =>
      simp [OperatorHolder.closePart] at he
      exact ⟨hd, rfl, he⟩

/-- Witness for C8 on a fully populated holder. -/
theorem c8_witness :
    (OperatorHolder.mk (some 1) (some 1) true).dtorEvents
      = (OperatorHolder.mk (some 1) (some 1) true).destroyPart
        ++ (OperatorHolder.mk (some 1) (some 1) true).closePart ∧
    (∀ e ∈ (OperatorHolder.mk (some 1) (some 1) true).destroyPart,
      ∃ inst, (OperatorHolder.mk (some 1) (some 1) true).op = some inst
        ∧ e = Event.destroyEv inst) ∧
    (∀ e ∈ (OperatorHolder.mk (some 1) (some 1) true).closePart,
      ∃ hd, (OperatorHolder.mk (some 1) (some 1) true).handle = some hd
        ∧ e = Event.dlcloseEv hd) :=
  c8_teardown_order (OperatorHolder.mk (some 1) (some 1) true)

/-- C9: a worker round whose snapshot yields no usable bundle (null holder or
null instance) is a soft failure: the statistics are unchanged by that round,
compute_score is not invoked, and the thread still completes every round of
its loop (it proceeds to the next round rather than terminating). -/
theorem c9_soft_fail (instName : Nat → String) (st : Statistics)
    (pre post : List (Option OperatorHolder)) (o : Option OperatorHolder)
    (ho : o = none ∨ ∃ h, o = some h ∧ h.op = none) :
    (business_thread_func instName (pre ++ o :: post) st).stats
      = (business_thread_func instName (pre ++ post) st).stats ∧
    (business_thread_func instName (pre ++ o :: post) st).compute_calls
      = (business_thread_func instName (pre ++ post) st).compute_calls ∧
    (business_thread_func instName (pre ++ o :: post) st).rounds_done
      = pre.length + post.length + 1 := by
  unfold business_thread_func
  rw [List.foldl_append, List.foldl_append, List.foldl_cons]
  have hbad := (round_step_spec instName
    (List.foldl (round_step instName)
      { stats := st, rounds_done := 0, compute_calls := 0 } pre) o).2 ho
  have hcongr := round_fold_congr instName post _ _ hbad.1 hbad.2
  refine ⟨hcongr.1, hcongr.2, ?_⟩
  rw [round_fold_rounds, (round_step_spec instName
    (List.foldl (round_step instName)
      { stats := st, rounds_done := 0, compute_calls := 0 } pre) o).1,
    round_fold_rounds]
  have h0 : ({ stats := st, rounds_done := 0, compute_calls := 0 }
      : ThreadRun).rounds_done = 0 := rfl
  omega

/-- Witness for C9: a single round observing a null holder. -/
theorem c9_witness :
    ((none : Option OperatorHolder) = none ∨
      ∃ h, (none : Option OperatorHolder) = some h ∧ h.op = none) ∧
    ((business_thread_func demoInstName ([] ++ none :: []) initStats).stats
        = (business_thread_func demoInstName ([] ++ []) initStats).stats ∧
     (business_thread_func demoInstName ([] ++ none :: []) initStats).compute_calls
        = (business_thread_func demoInstName ([] ++ []) initStats).compute_calls ∧
     (business_thread_func demoInstName ([] ++ none :: []) initStats).rounds_done
        = List.length ([] : List (Option OperatorHolder))
          + List.length ([] : List (Option OperatorHolder)) + 1) :=
  ⟨Or.inl rfl, c9_soft_fail demoInstName initStats [] [] none (Or.inl rfl)⟩

/-- C10: for both shipped computation units, compute_score is a pure function
of the Feature argument and name is a constant: equal Feature inputs give
equal scores whatever the ambient state, and neither method reads or writes
any state outside the Feature argument and locals (the state component passes
through unchanged). -/
theorem c10_purity (S : Type) (sinFn : ℚ → ℚ) (f1 f2 : Feature) (σ1 σ2 : S)
    (hf : f1 = f2) :
    (computeScoreV1 f1 σ1).1 = (computeScoreV1 f2 σ2).1 ∧
    (computeScoreV1 f1 σ1).2 = σ1 ∧
    (computeScoreV2 sinFn f1 σ1).1 = (computeScoreV2 sinFn f2 σ2).1 ∧
    (computeScoreV2 sinFn f1 σ1).2 = σ1 ∧
    (nameV1 σ1).1 = (nameV1 σ2).1 ∧ (nameV1 (σ1 : S)).2 = σ1 ∧
    (nameV2 σ1).1 = (nameV2 σ2).1 ∧ (nameV2 (σ1 : S)).2 = σ1 := by
  subst hf
  exact ⟨rfl, rfl, rfl, rfl, rfl, rfl, rfl, rfl⟩

/-- Witness for C10 at a concrete feature and two distinct ambient states. -/
theorem c10_witness :
    (computeScoreV1 (Feature.mk 1 2 3 4) (5 : Nat)).1
        = (computeScoreV1 (Feature.mk 1 2 3 4) (6 : Nat)).1 ∧
    (computeScoreV1 (Feature.mk 1 2 3 4) (5 : Nat)).2 = 5 ∧
    (computeScoreV2 id (Feature.mk 1 2 3 4) (5 : Nat)).1
        = (computeScoreV2 id (Feature.mk 1 2 3 4) (6 : Nat)).1 ∧
    (computeScoreV2 id (Feature.mk 1 2 3 4) (5 : Nat)).2 = 5 ∧
    (nameV1 (5 : Nat)).1 = (nameV1 (6 : Nat)).1 ∧ (nameV1 (5 : Nat)).2 = 5 ∧
    (nameV2 (5 : Nat)).1 = (nameV2 (6 : Nat)).1 ∧ (nameV2 (5 : Nat)).2 = 5 :=
  c10_purity Nat id (Feature.mk 1 2 3 4) (Feature.mk 1 2 3 4) 5 6 rfl

end CxxHotplug
